import Mathlib

/-!
Verification of the Steel-LLMSense evaluation pipeline.

The development shallowly embeds the two script modules
(`scripts/evaluate_llm.py`, `scripts/generate_daily_summaries.py`) and the
iterative-debate branch of `app.py`.  Network effects of the text-generation
backend are modelled by an oracle `backend : Nat -> TransportResult` giving the
outcome of the n-th HTTP request of the session, and the Python standard
library JSON parser is modelled by an abstract total function
`jsonLoads : String -> Option JsonVal` (`some` = successful parse, `none` =
JSONDecodeError).  Python strings are Lean `String`s; Python dicts that hold
JSON data are association lists inside `JsonVal`.
-/

/-- A JSON value as produced by the Python `json` module: the payloads the
scripts parse, build and persist.  Dictionaries keep their insertion order,
matching Python dict semantics. -/
inductive JsonVal where
  | null : JsonVal
  | bool (b : Bool) : JsonVal
  | num (q : Rat) : JsonVal
  | str (s : String) : JsonVal
  | arr (elems : List JsonVal) : JsonVal
  | obj (fields : List (String × JsonVal)) : JsonVal

/-- Field lookup on a JSON object (`d[k]` / `d.get(k)` on a parsed dict);
`none` when the value is not an object or the key is absent. -/
def jsonGet (j : JsonVal) (key : String) : Option JsonVal :=
  match j with
  | JsonVal.obj fields => fields.lookup key
  | _ => none

/-- Python truthiness of a JSON value (`if revised:` in `app.py`): empty
strings, empty containers, zero and `null`/`False` are falsy. -/
def pyTruthy (j : JsonVal) : Bool :=
  match j with
  | JsonVal.null => false
  | JsonVal.bool b => b
  | JsonVal.num q => !(q == 0)
  | JsonVal.str s => !(s == "")
  | JsonVal.arr elems => !(elems.isEmpty)
  | JsonVal.obj fields => !(fields.isEmpty)

/-- Outcome of one HTTP POST to the Ollama endpoint: a 2xx response whose JSON
body carries the generated text in its `response` field, or a transport-level
failure (connection refused, timeout, non-2xx raised by `raise_for_status`),
i.e. a `requests.exceptions.RequestException` with message `msg`. -/
inductive TransportResult where
  | success (text : String) : TransportResult
  | failure (msg : String) : TransportResult

/-- Python `str.strip()`: drop leading and trailing whitespace. -/
def pyStrip (s : String) : String :=
  ⟨(((s.data.dropWhile Char.isWhitespace).reverse).dropWhile Char.isWhitespace).reverse⟩

/-- The in-band error payload built by `send_to_ollama`
(`scripts/evaluate_llm.py` line 29) when the request raises: the f-string
`'\x7b"error": "Failed to connect to Ollama API after multiple attempts: \x7besc\x7d"\x7d'`. -/
def ollamaErrorSentinel (e : String) : String :=
  "\x7b\"error\": \"Failed to connect to Ollama API after multiple attempts: " ++ e ++ "\"\x7d"

/-- The body of `send_to_ollama` (`scripts/evaluate_llm.py` lines 16-29) for
one attempt: POST the prompt; on a 2xx response return the stripped `response`
field, on any `RequestException` return the sentinel error payload.  The
`attempt` argument indexes into the backend oracle; the prompt and generation
options do not influence transport behaviour and are omitted from the oracle.
Note the exception is caught inside the function body, so the body itself
never raises. -/
def send_to_ollama_once (backend : Nat → TransportResult) (attempt : Nat) : String :=
  match backend attempt with
  | TransportResult.success text => pyStrip text
  | TransportResult.failure e => ollamaErrorSentinel e

/-- Model of the `tenacity` `@retry(stop=stop_after_attempt n, wait=wait_fixed 2)`
decorator: run the wrapped body (`Except.error` = the body raised); on an
exception retry until `n` attempts have been made, then let the final
exception propagate.  The fixed 2-second wait has no observable effect in this
embedding.  `i` is the index of the next backend request. -/
def retryCall (body : Nat → Except String String) : Nat → Nat → Except String String
  | 0, _ => Except.error "RetryError"
  | Nat.succ n, i =>
    match body i with
    | Except.ok s => Except.ok s
    | Except.error e =>
      match n with
      | 0 => Except.error e
      | Nat.succ m => retryCall body (Nat.succ m) (i + 1)

/-- `send_to_ollama` of `scripts/evaluate_llm.py` (lines 10-29): the attempt
body wrapped in the tenacity retry decorator with `stop_after_attempt(3)`.
Because the body catches `RequestException` itself and returns the sentinel
string instead of raising, every call of the body is an `Except.ok`. -/
def send_to_ollama (backend : Nat → TransportResult) : Except String String :=
  retryCall (fun i => Except.ok (send_to_ollama_once backend i)) 3 0

/-- The wrapped client returns after its very first attempt, for every
backend: the internal try/except means tenacity never observes an exception. -/
theorem send_to_ollama_single_attempt (backend : Nat → TransportResult) :
    send_to_ollama backend = Except.ok (send_to_ollama_once backend 0) := rfl

/-- A backend that fails at the transport level on the first two requests and
would succeed on the third: the concrete input exercising the retry-exhaustion
boundary described by the spec. -/
def failTwiceBackend : Nat → TransportResult := fun n =>
  if n < 2 then TransportResult.failure "refused" else TransportResult.success "recovered"

/-- C1: the retry claim is contradicted by the code.  Against a backend that
fails on the first two attempts and succeeds on the third, `send_to_ollama`
does not return the success text "recovered"; it returns the structured error
payload immediately after the first failure, because the internal try/except
swallows the exception that the tenacity decorator would need to see in order
to retry. -/
theorem c1_no_retry_at_failing_input :
    send_to_ollama failTwiceBackend =
      Except.ok (ollamaErrorSentinel "refused") ∧
    send_to_ollama failTwiceBackend ≠ Except.ok "recovered" := by
  constructor
  · rfl
  · intro h
    rw [send_to_ollama_single_attempt] at h
    simp only [Except.ok.injEq] at h
    exact absurd h (by decide)

/-- Role of a debate turn: the two arguing agents plus the final judge call. -/
inductive Role where
  | pro : Role
  | con : Role
  | judge : Role

/-- One backend interaction of the iterative debate: the role it was made for,
the exact prompt sent, the generation temperature, and the text that came
back from the client (success text or the in-band error sentinel). -/
structure DebateEvent where
  role : Role
  prompt : String
  temperature : Rat
  response : String

/-- `_build_debate_agent_prompt` of `scripts/evaluate_llm.py` (lines 129-144):
the fixed defend/critique templates, embedding the equation, the original
interpretation and the full transcript so far. -/
def build_debate_agent_prompt (summary_equation llm_reasoning stance history : String) :
    String :=
  if stance = "pro" then
    "You are a debate agent. Your goal is to DEFEND the following analysis based on the provided equation. Be specific and use the numbers from the equation to back up your points.\n\n        Equation: `" ++
      summary_equation ++ "`\n        Analysis to Defend: `" ++ llm_reasoning ++
      "`\n        " ++ history ++ "\n        Your turn. State your case concisely:"
  else
    "You are a debate agent. Your goal is to CRITIQUE the following analysis based on the provided equation. Find flaws, missed insights, or unclear points. Be specific.\n\n        Equation: `" ++
      summary_equation ++ "`\n        Analysis to Critique: `" ++ llm_reasoning ++
      "`\n        " ++ history ++ "\n        Your turn. State your critique concisely:"

/-- The judge prompt of `run_iterative_debate` (lines 163-184): equation,
original interpretation and the entire transcript, with the strict-JSON
output instructions. -/
def judge_prompt (summary_equation llm_reasoning history : String) : String :=
  "\n    You are the judge of an AI debate. Below is the full transcript.\n    Your task is to analyze the debate, declare a winner, and provide a revised, improved version of the original analysis that incorporates the valid points from both sides.\n\n    **Original Model Equation**:\n    `" ++
    summary_equation ++ "`\n\n    **Original Analysis**:\n    `" ++ llm_reasoning ++
    "`\n\n    **Debate Transcript**:\n    " ++ history ++
    "\n\n    **Your Final Judgement (Strict JSON Output):**\n    \x7b\n      \"debate_summary\": \"A brief summary of the key arguments from both sides.\",\n      \"winner\": \"Pro Agent\" or \"Con Agent\",\n      \"reason_for_decision\": \"Explain your ruling.\",\n      \"final_scores\": \x7b\"correctness_score\": 0-10, \"clarity_score\": 0-10, \"usefulness_score\": 0-10\x7d,\n      \"revised_pro\": \"Provide a new, improved version of the analysis here. This should be a complete JSON object with \x27maintenance_needed\x27, \x27reasoning\x27, and \x27energy_optimization_suggestions\x27 keys.\"\n    \x7d\n    "

/-- The transcript line appended after a Pro turn of round `i` (0-based):
`f"Round \x7bi+1\x7d (Pro): \x7bpro_argument\x7d\n"`. -/
def proLine (i : Nat) (arg : String) : String :=
  "Round " ++ toString (i + 1) ++ " (Pro): " ++ arg ++ "\n"

/-- The transcript line appended after a Con turn of round `i` (0-based). -/
def conLine (i : Nat) (arg : String) : String :=
  "Round " ++ toString (i + 1) ++ " (Con): " ++ arg ++ "\n"

/-- Mutable state of the debate loop: the accumulated transcript string, the
index of the next backend request of the session, and the log of backend
interactions made so far. -/
structure DebateState where
  history : String
  callIdx : Nat
  events : List DebateEvent

/-- The text a single `send_to_ollama` call hands back to the caller, when it
is the `n`-th backend request of the session.  Its `Except.error` branch is
unreachable: `send_to_ollama` never raises (`send_to_ollama_single_attempt`). -/
def clientCall (backend : Nat → TransportResult) (n : Nat) : String :=
  match send_to_ollama (fun k => backend (n + k)) with
  | Except.ok s => s
  | Except.error _ => ""

theorem clientCall_eq (backend : Nat → TransportResult) (n : Nat) :
    clientCall backend n = send_to_ollama_once backend n := by
  simp only [clientCall, send_to_ollama_single_attempt, send_to_ollama_once, Nat.add_zero]

/-- One iteration of the `for i in range(rounds)` loop of
`run_iterative_debate` (lines 151-160): Pro turn from the current history,
append its tagged line, Con turn from the extended history, append its line.
Both agent calls use temperature 0.5. -/
def debateRound (backend : Nat → TransportResult)
    (summary_equation llm_reasoning : String) (i : Nat) (st : DebateState) : DebateState :=
  let pro_prompt := build_debate_agent_prompt summary_equation llm_reasoning "pro" st.history
  let pro_argument := clientCall backend st.callIdx
  let h1 := st.history ++ proLine i pro_argument
  let con_prompt := build_debate_agent_prompt summary_equation llm_reasoning "con" h1
  let con_argument := clientCall backend (st.callIdx + 1)
  let h2 := h1 ++ conLine i con_argument
  ⟨h2, st.callIdx + 2,
    st.events ++
      [⟨Role.pro, pro_prompt, (1 : Rat) / 2, pro_argument⟩,
       ⟨Role.con, con_prompt, (1 : Rat) / 2, con_argument⟩]⟩

/-- The debate loop: run the remaining `n` rounds, the next one having
0-based index `i`. -/
def runRounds (backend : Nat → TransportResult) (summary_equation llm_reasoning : String) :
    Nat → Nat → DebateState → DebateState
  | _, 0, st => st
  | i, Nat.succ n, st =>
      runRounds backend summary_equation llm_reasoning (i + 1) n
        (debateRound backend summary_equation llm_reasoning i st)

/-- The fallback verdict built at line 189 when `json.loads` fails on the
judge output. -/
def judgeFallback (raw : String) : JsonVal :=
  JsonVal.obj
    [("error", JsonVal.str "Failed to parse the judge\x27s final JSON output."),
     ("raw_output", JsonVal.str raw)]

/-- `run_iterative_debate` of `scripts/evaluate_llm.py` (lines 146-189):
`rounds` Pro/Con rounds accumulating the transcript (initialised to the bare
"Debate History:" header), then one judge call at the default temperature 0.1,
whose output is parsed as JSON or wrapped in the fallback verdict.  Returns
the log of backend interactions together with the verdict dictionary the
Python function returns. -/
def run_iterative_debate (backend : Nat → TransportResult)
    (jsonLoads : String → Option JsonVal)
    (summary_equation llm_reasoning : String) (rounds : Nat) :
    List DebateEvent × JsonVal :=
  let st := runRounds backend summary_equation llm_reasoning 0 rounds
    ⟨"Debate History:\n", 0, []⟩
  let jp := judge_prompt summary_equation llm_reasoning st.history
  let final_judgement_str := clientCall backend st.callIdx
  let verdict :=
    match jsonLoads final_judgement_str with
    | some j => j
    | none => judgeFallback final_judgement_str
  (st.events ++ [⟨Role.judge, jp, (1 : Rat) / 10, final_judgement_str⟩], verdict)

theorem runRounds_proj (backend : Nat → TransportResult) (eq reas : String) :
    ∀ (n i : Nat) (st : DebateState),
      ((runRounds backend eq reas i n st).events.map DebateEvent.role
          = st.events.map DebateEvent.role ++ (List.replicate n [Role.pro, Role.con]).flatten)
      ∧ ((runRounds backend eq reas i n st).events.map DebateEvent.response
          = st.events.map DebateEvent.response ++
            (List.range' st.callIdx (2 * n)).map (send_to_ollama_once backend))
      ∧ (runRounds backend eq reas i n st).callIdx = st.callIdx + 2 * n := by
  intro n
  induction n with
  | zero => intro i st; simp [runRounds]
  | succ n ih =>
    intro i st
    obtain ⟨h1, h2, h3⟩ := ih (i + 1) (debateRound backend eq reas i st)
    have hunfold : runRounds backend eq reas i (n + 1) st
        = runRounds backend eq reas (i + 1) n (debateRound backend eq reas i st) := rfl
    have hev : (debateRound backend eq reas i st).events
        = st.events ++
          [⟨Role.pro, build_debate_agent_prompt eq reas "pro" st.history,
              (1 : Rat) / 2, send_to_ollama_once backend st.callIdx⟩,
           ⟨Role.con,
              build_debate_agent_prompt eq reas "con"
                (st.history ++ proLine i (send_to_ollama_once backend st.callIdx)),
              (1 : Rat) / 2, send_to_ollama_once backend (st.callIdx + 1)⟩] := by
      simp [debateRound, clientCall_eq]
    have hci : (debateRound backend eq reas i st).callIdx = st.callIdx + 2 := rfl
    refine ⟨?_, ?_, ?_⟩
    · rw [hunfold, h1, hev]
      simp [List.replicate_succ]
    · rw [hunfold, h2, hev, hci]
      have hr : List.range' st.callIdx (2 * (n + 1))
          = st.callIdx :: (st.callIdx + 1) :: List.range' (st.callIdx + 2) (2 * n) := by
        have e1 : 2 * (n + 1) = (2 * n + 1) + 1 := by omega
        rw [e1, List.range'_succ st.callIdx (2 * n + 1) 1, List.range'_succ (st.callIdx + 1) (2 * n) 1]
      rw [hr]
      simp
    · rw [hunfold, h3, hci]; omega

/-- C2: for every backend, parser, equation and interpretation, the iterative
debate with rounds = 2 makes exactly five backend interactions, in the order
Pro, Con, Pro, Con (the transcript turns of rounds 1 and 2) followed by a
single judge call after all agent turns. -/
theorem c2_two_rounds_turn_order (backend : Nat → TransportResult)
    (jsonLoads : String → Option JsonVal) (eq reas : String) :
    ((run_iterative_debate backend jsonLoads eq reas 2).1.map DebateEvent.role)
      = [Role.pro, Role.con, Role.pro, Role.con, Role.judge] := by
  have h := (runRounds_proj backend eq reas 2 0 ⟨"Debate History:\n", 0, []⟩).1
  simp only [run_iterative_debate]
  rw [List.map_append, h]
  simp

/-- C5: a transport failure during any turn never aborts the debate.  For
every backend (in particular any that fails at the transport level on some
calls) the run still performs all `rounds` Pro/Con pairs followed by the one
judge call, and the utterance recorded for the n-th backend request is exactly
what the client hands back for it — `send_to_ollama_once` maps a transport
failure to the in-band `ollamaErrorSentinel` string, which is appended to the
transcript like a genuine utterance. -/
theorem c5_transport_failure_does_not_abort (backend : Nat → TransportResult)
    (jsonLoads : String → Option JsonVal) (eq reas : String) (rounds : Nat) :
    ((run_iterative_debate backend jsonLoads eq reas rounds).1.map DebateEvent.role
        = (List.replicate rounds [Role.pro, Role.con]).flatten ++ [Role.judge])
    ∧ ((run_iterative_debate backend jsonLoads eq reas rounds).1.map DebateEvent.response
        = (List.range (2 * rounds + 1)).map (send_to_ollama_once backend)) := by
  obtain ⟨h1, h2, h3⟩ := runRounds_proj backend eq reas rounds 0 ⟨"Debate History:\n", 0, []⟩
  constructor
  · simp only [run_iterative_debate]
    rw [List.map_append, h1]
    simp
  · simp only [run_iterative_debate]
    rw [List.map_append, h2, h3]
    have : List.range (2 * rounds + 1) = List.range' 0 (2 * rounds) ++ [2 * rounds] := by
      rw [List.range_eq_range', List.range'_1_concat]
      simp
    rw [this]
    simp [clientCall_eq, Nat.zero_add]

/-- C10: with rounds = 0 the debate makes no Pro or Con call at all: the one
and only backend interaction is the judge call, its prompt embeds the bare
"Debate History:" header as the whole transcript section, its response is the
first client result of the session, and on a parse failure the returned value
is still the error/raw_output fallback dictionary. -/
theorem c10_zero_rounds_judge_only (backend : Nat → TransportResult)
    (jsonLoads : String → Option JsonVal) (eq reas : String) :
    ((run_iterative_debate backend jsonLoads eq reas 0).1.map DebateEvent.role = [Role.judge])
    ∧ ((run_iterative_debate backend jsonLoads eq reas 0).1.map DebateEvent.prompt
        = [judge_prompt eq reas "Debate History:\n"])
    ∧ ((run_iterative_debate backend jsonLoads eq reas 0).1.map DebateEvent.response
        = [send_to_ollama_once backend 0])
    ∧ (jsonLoads (send_to_ollama_once backend 0) = none →
        (run_iterative_debate backend jsonLoads eq reas 0).2
          = judgeFallback (send_to_ollama_once backend 0)) := by
  have hc : clientCall backend 0 = send_to_ollama_once backend 0 := clientCall_eq backend 0
  refine ⟨rfl, rfl, ?_, ?_⟩
  · simp only [run_iterative_debate, runRounds]
    simp [hc]
  · intro h
    simp only [run_iterative_debate, runRounds]
    simp only [hc, h]

/-- Witness for C10 at a concrete input: a backend that always answers "bad"
and a parser that always fails; the zero-round debate returns the fallback
verdict carrying "bad" and its only interaction is the judge call. -/
theorem c10_witness :
    (run_iterative_debate (fun _ => TransportResult.success "bad") (fun _ => none)
        "E" "R" 0).2
      = judgeFallback "bad"
    ∧ ((run_iterative_debate (fun _ => TransportResult.success "bad") (fun _ => none)
        "E" "R" 0).1.map DebateEvent.role = [Role.judge]) := by
  obtain ⟨h1, _, _, h4⟩ := c10_zero_rounds_judge_only
    (fun _ => TransportResult.success "bad") (fun _ => none) "E" "R"
  exact ⟨h4 rfl, h1⟩

/-- C3: whenever the judge output (the response of the final backend
interaction) does not parse as JSON, `run_iterative_debate` still returns a
verdict dictionary, namely the fallback object with an `error` key and a
`raw_output` key holding the unparsed judge text character for character. -/
theorem c3_judge_parse_failure_fallback (backend : Nat → TransportResult)
    (jsonLoads : String → Option JsonVal) (eq reas : String) (rounds : Nat)
    (h : jsonLoads
        (((run_iterative_debate backend jsonLoads eq reas rounds).1.getLastD
            ⟨Role.judge, "", 0, ""⟩).response) = none) :
    (run_iterative_debate backend jsonLoads eq reas rounds).2
      = judgeFallback
          (((run_iterative_debate backend jsonLoads eq reas rounds).1.getLastD
              ⟨Role.judge, "", 0, ""⟩).response) := by
  have hlast : ((run_iterative_debate backend jsonLoads eq reas rounds).1.getLastD
      ⟨Role.judge, "", 0, ""⟩).response
      = clientCall backend
          (runRounds backend eq reas 0 rounds ⟨"Debate History:\n", 0, []⟩).callIdx := by
    simp only [run_iterative_debate, List.getLastD_concat]
  rw [hlast] at h ⊢
  simp only [run_iterative_debate, h]

/-- Witness for C3 at a concrete input: one round against a backend that
always answers "not json", with a parser that always fails. -/
theorem c3_witness :
    (run_iterative_debate (fun _ => TransportResult.success "not json") (fun _ => none)
        "E" "R" 1).2
      = judgeFallback
          (((run_iterative_debate (fun _ => TransportResult.success "not json")
              (fun _ => none) "E" "R" 1).1.getLastD ⟨Role.judge, "", 0, ""⟩).response) :=
  c3_judge_parse_failure_fallback (fun _ => TransportResult.success "not json")
    (fun _ => none) "E" "R" 1 rfl

theorem data_chunk (x y z : String) : y.data <:+: ((x ++ y) ++ z).data :=
  ⟨x.data, z.data, by simp [String.data_append]⟩

theorem chunk_left (y z : String) : y.data <:+: (y ++ z).data :=
  ⟨[], z.data, by simp [String.data_append]⟩

theorem chunk_right (x y : String) : y.data <:+: (x ++ y).data :=
  ⟨x.data, [], by simp [String.data_append]⟩

theorem chunk_trans {α : Type} {l₁ l₂ l₃ : List α} (h1 : l₁ <:+: l₂) (h2 : l₂ <:+: l₃) :
    l₁ <:+: l₃ := by
  obtain ⟨a, b, rfl⟩ := h1
  obtain ⟨c, d, rfl⟩ := h2
  exact ⟨c ++ a, b ++ d, by simp⟩

/-- Every agent prompt embeds the transcript handed to the template in full. -/
theorem history_in_agent_prompt (eq reas stance h : String) :
    h.data <:+: (build_debate_agent_prompt eq reas stance h).data := by
  unfold build_debate_agent_prompt
  split
  · exact data_chunk _ _ _
  · exact data_chunk _ _ _

/-- The judge prompt embeds the transcript handed to the template in full. -/
theorem history_in_judge_prompt (eq reas h : String) :
    h.data <:+: (judge_prompt eq reas h).data :=
  data_chunk _ _ _

theorem arg_in_proLine (i : Nat) (arg : String) : arg.data <:+: (proLine i arg).data :=
  data_chunk _ _ _

theorem arg_in_conLine (i : Nat) (arg : String) : arg.data <:+: (conLine i arg).data :=
  data_chunk _ _ _

/-- Event `a` happened strictly before event `b` and `b`'s prompt carries
`a`'s utterance verbatim. -/
def seesEarlier (a b : DebateEvent) : Prop :=
  a.response.data <:+: b.prompt.data

theorem debateRound_inv (backend : Nat → TransportResult) (eq reas : String)
    (i : Nat) (st : DebateState)
    (hresp : ∀ e ∈ st.events, e.response.data <:+: st.history.data)
    (hpw : List.Pairwise seesEarlier st.events) :
    (∀ e ∈ (debateRound backend eq reas i st).events,
        e.response.data <:+: (debateRound backend eq reas i st).history.data)
    ∧ List.Pairwise seesEarlier (debateRound backend eq reas i st).events
    ∧ st.history.data <:+: (debateRound backend eq reas i st).history.data := by
  simp only [debateRound]
  set proArg := clientCall backend st.callIdx with hpa
  set conArg := clientCall backend (st.callIdx + 1) with hca
  set h1 := st.history ++ proLine i proArg with hh1
  set h2 := h1 ++ conLine i conArg with hh2
  have hst_h1 : st.history.data <:+: h1.data := chunk_left _ _
  have hh1_h2 : h1.data <:+: h2.data := chunk_left _ _
  have hst_h2 : st.history.data <:+: h2.data := chunk_trans hst_h1 hh1_h2
  have hpro_line : (proLine i proArg).data <:+: h1.data := chunk_right _ _
  have hpro_h1 : proArg.data <:+: h1.data := chunk_trans (arg_in_proLine i proArg) hpro_line
  have hpro_h2 : proArg.data <:+: h2.data := chunk_trans hpro_h1 hh1_h2
  have hcon_h2 : conArg.data <:+: h2.data :=
    chunk_trans (arg_in_conLine i conArg) (chunk_right _ _)
  refine ⟨?_, ?_, hst_h2⟩
  · intro e he
    rcases List.mem_append.mp he with hold | hnew
    · exact chunk_trans (hresp e hold) hst_h2
    · simp only [List.mem_cons, List.mem_singleton, List.not_mem_nil, or_false] at hnew
      rcases hnew with rfl | rfl
      · exact hpro_h2
      · exact hcon_h2
  · refine List.pairwise_append.mpr ⟨hpw, ?_, ?_⟩
    · refine List.pairwise_cons.mpr ⟨?_, by simp⟩
      intro b hb
      simp only [List.mem_singleton] at hb
      subst hb
      exact chunk_trans hpro_h1 (history_in_agent_prompt eq reas "con" h1)
    · intro a ha b hb
      have hahist : a.response.data <:+: st.history.data := hresp a ha
      simp only [List.mem_cons, List.mem_singleton, List.not_mem_nil, or_false] at hb
      rcases hb with rfl | rfl
      · exact chunk_trans hahist (history_in_agent_prompt eq reas "pro" st.history)
      · exact chunk_trans hahist
          (chunk_trans hst_h1 (history_in_agent_prompt eq reas "con" h1))

theorem runRounds_inv (backend : Nat → TransportResult) (eq reas : String) :
    ∀ (n i : Nat) (st : DebateState),
      (∀ e ∈ st.events, e.response.data <:+: st.history.data) →
      List.Pairwise seesEarlier st.events →
      (∀ e ∈ (runRounds backend eq reas i n st).events,
          e.response.data <:+: (runRounds backend eq reas i n st).history.data)
      ∧ List.Pairwise seesEarlier (runRounds backend eq reas i n st).events
      ∧ st.history.data <:+: (runRounds backend eq reas i n st).history.data := by
  intro n
  induction n with
  | zero =>
    intro i st hresp hpw
    exact ⟨hresp, hpw, ⟨[], [], by simp [runRounds]⟩⟩
  | succ n ih =>
    intro i st hresp hpw
    obtain ⟨hr, hp, hh⟩ := debateRound_inv backend eq reas i st hresp hpw
    obtain ⟨hr2, hp2, hh2⟩ := ih (i + 1) (debateRound backend eq reas i st) hr hp
    exact ⟨hr2, hp2, chunk_trans hh hh2⟩

/-- C4: the transcript is append-only and is embedded in full in every
subsequent prompt.  Any two backend interactions of one run are related by
`seesEarlier`: the earlier interaction's utterance occurs verbatim inside the
later interaction's prompt (Con of round i sees the just-appended Pro turn,
round i+1 sees all of rounds 1..i, the judge sees everything); moreover the
judge prompt — the final interaction's prompt — embeds the entire accumulated
transcript string. -/
theorem c4_transcript_in_every_later_prompt (backend : Nat → TransportResult)
    (jsonLoads : String → Option JsonVal) (eq reas : String) (rounds : Nat) :
    List.Pairwise seesEarlier (run_iterative_debate backend jsonLoads eq reas rounds).1
    ∧ ((runRounds backend eq reas 0 rounds ⟨"Debate History:\n", 0, []⟩).history.data <:+:
        ((run_iterative_debate backend jsonLoads eq reas rounds).1.getLastD
            ⟨Role.judge, "", 0, ""⟩).prompt.data) := by
  obtain ⟨hresp, hpw, _⟩ :=
    runRounds_inv backend eq reas rounds 0 ⟨"Debate History:\n", 0, []⟩
      (by intro e he; cases he) (by simp)
  constructor
  · simp only [run_iterative_debate]
    refine List.pairwise_append.mpr ⟨hpw, by simp, ?_⟩
    intro a ha b hb
    simp only [List.mem_singleton] at hb
    subst hb
    exact chunk_trans (hresp a ha) (history_in_judge_prompt eq reas _)
  · simp only [run_iterative_debate, List.getLastD_concat]
    exact history_in_judge_prompt eq reas _

/-- `save_output_json` of `scripts/generate_daily_summaries.py` (lines
123-132): the file path written and the JSON object dumped into it.  The
`reasoning` argument is the raw client response string and is stored as-is
(`json.dump` serialises the Python string it was given). -/
def save_output_json (summary reasoning suggested_name : String) : String × JsonVal :=
  ("outputs/" ++ suggested_name ++ ".json",
   JsonVal.obj [("summary", JsonVal.str summary), ("reasoning", JsonVal.str reasoning)])

/-- C8 counterexample: saving an interpretation whose text is even valid JSON
produces a record with no `summary_equation` key at all — its keys are
`summary` and `reasoning` — and the `reasoning` value is the raw text as a
JSON string, not a parsed object and not a `raw_output` wrapper. -/
theorem c8_counterexample :
    jsonGet (save_output_json "EQ" "\x7b\"maintenance_needed\": \"Yes\"\x7d" "rec1").2
        "summary_equation" = none
    ∧ jsonGet (save_output_json "EQ" "\x7b\"maintenance_needed\": \"Yes\"\x7d" "rec1").2
        "reasoning" = some (JsonVal.str "\x7b\"maintenance_needed\": \"Yes\"\x7d") :=
  ⟨rfl, rfl⟩

/-- C8 (amended): saving an interpretation for a named record writes
`outputs/<name>.json` whose top-level object holds the summary string under
the `summary` key and the raw interpretation text, unparsed and unwrapped,
under the `reasoning` key. -/
theorem c8_saved_record_shape (summary reasoning name : String) :
    (save_output_json summary reasoning name).1 = "outputs/" ++ name ++ ".json"
    ∧ jsonGet (save_output_json summary reasoning name).2 "summary"
        = some (JsonVal.str summary)
    ∧ jsonGet (save_output_json summary reasoning name).2 "reasoning"
        = some (JsonVal.str reasoning) :=
  ⟨rfl, rfl, rfl⟩

/-- Python `str.replace(".json", "")` specialised to the literal `".json"`:
delete every non-overlapping occurrence, scanning left to right. -/
def replace_dot_json : List Char → List Char
  | '.' :: 'j' :: 's' :: 'o' :: 'n' :: rest => replace_dot_json rest
  | c :: rest => c :: replace_dot_json rest
  | [] => []

/-- `selected_file.replace(".json", "")` of `app.py` line 183. -/
def pyStripDotJson (s : String) : String :=
  ⟨replace_dot_json s.data⟩

/-- The `reasoning_data` computed by `save_revised_reasoning`
(`scripts/evaluate_llm.py` lines 203-207): `json.loads` of the revision when
it is a string (`TypeError` otherwise), falling back to the
`raw_revised_output` wrapper on `JSONDecodeError`/`TypeError`. -/
def revisedPayload (jsonLoads : String → Option JsonVal) (revised : JsonVal) : JsonVal :=
  match revised with
  | JsonVal.str s =>
    match jsonLoads s with
    | some j => j
    | none => JsonVal.obj [("raw_revised_output", JsonVal.str s)]
  | v => JsonVal.obj [("raw_revised_output", v)]

/-- `save_revised_reasoning` of `scripts/evaluate_llm.py` (lines 196-216):
the file path written (`outputs/<base>_revised.json`) and the JSON object
dumped into it. -/
def save_revised_reasoning (jsonLoads : String → Option JsonVal)
    (filename_base summary_equation : String) (revised_reasoning : JsonVal) :
    String × JsonVal :=
  ("outputs/" ++ filename_base ++ "_revised.json",
   JsonVal.obj
     [("summary_equation", JsonVal.str summary_equation),
      ("revised_reasoning", revisedPayload jsonLoads revised_reasoning)])

/-- The save logic following `run_iterative_debate` in the Iterative Agent
Debate branch of `app.py` (lines 181-183): `revised = result.get("revised_pro", "")`,
and only a truthy `revised` is persisted.  `result.get` on a non-dict verdict
raises `AttributeError`, modelled by the `Except.error` branch. -/
def debate_branch_save (jsonLoads : String → Option JsonVal)
    (selected_file equation : String) (result : JsonVal) :
    Except String (Option (String × JsonVal)) :=
  match result with
  | JsonVal.obj fields =>
    let revised := (fields.lookup "revised_pro").getD (JsonVal.str "")
    if pyTruthy revised then
      Except.ok (some
        (save_revised_reasoning jsonLoads (pyStripDotJson selected_file) equation revised))
    else
      Except.ok none
  | _ => Except.error "AttributeError"

/-- The Iterative Agent Debate branch of `app.py` (lines 177-183): run the
debate at the default 2 rounds, then persist the revision if present. -/
def iterative_debate_branch (backend : Nat → TransportResult)
    (jsonLoads : String → Option JsonVal)
    (selected_file equation reasoning : String) :
    (List DebateEvent × JsonVal) × Except String (Option (String × JsonVal)) :=
  let r := run_iterative_debate backend jsonLoads equation reasoning 2
  (r, debate_branch_save jsonLoads selected_file equation r.2)

/-- C9: after an iterative-debate run whose verdict is a dictionary, a revised
record is persisted if and only if the verdict carries a truthy (non-empty)
`revised_pro`; when persisted, the file is named by the original record
identifier with the `_revised` suffix and its body holds the equation under
`summary_equation` and, under `revised_reasoning`, the revision parsed as
JSON or wrapped as `raw_revised_output` on parse failure. -/
theorem c9_revised_record_persistence (backend : Nat → TransportResult)
    (jsonLoads : String → Option JsonVal)
    (selected_file equation reasoning : String) (fields : List (String × JsonVal))
    (hres : (run_iterative_debate backend jsonLoads equation reasoning 2).2
        = JsonVal.obj fields) :
    ((iterative_debate_branch backend jsonLoads selected_file equation reasoning).2
        = Except.ok none
      ↔ pyTruthy ((fields.lookup "revised_pro").getD (JsonVal.str "")) = false)
    ∧ (pyTruthy ((fields.lookup "revised_pro").getD (JsonVal.str "")) = true →
        (iterative_debate_branch backend jsonLoads selected_file equation reasoning).2
          = Except.ok (some
              ("outputs/" ++ pyStripDotJson selected_file ++ "_revised.json",
               JsonVal.obj
                 [("summary_equation", JsonVal.str equation),
                  ("revised_reasoning",
                   revisedPayload jsonLoads
                     ((fields.lookup "revised_pro").getD (JsonVal.str "")))]))) := by
  have hbr : (iterative_debate_branch backend jsonLoads selected_file equation reasoning).2
      = debate_branch_save jsonLoads selected_file equation (JsonVal.obj fields) := by
    simp only [iterative_debate_branch, hres]
  rw [hbr]
  cases hpt : pyTruthy ((fields.lookup "revised_pro").getD (JsonVal.str "")) with
  | false => simp [debate_branch_save, hpt]
  | true => simp [debate_branch_save, hpt, save_revised_reasoning]

/-- Witness for C9 at a concrete input: the judge output "foo" parses to a
verdict with non-empty `revised_pro` = "rev", which does not itself parse as
JSON, so the branch writes the `_revised` record with the wrapped revision. -/
theorem c9_witness :
    (iterative_debate_branch (fun _ => TransportResult.success "foo")
        (fun s => if s = "foo"
          then some (JsonVal.obj [("revised_pro", JsonVal.str "rev")]) else none)
        "myrec.json" "EQ" "RS").2
      = Except.ok (some
          ("outputs/myrec_revised.json",
           JsonVal.obj
             [("summary_equation", JsonVal.str "EQ"),
              ("revised_reasoning",
               JsonVal.obj [("raw_revised_output", JsonVal.str "rev")])])) := by
  have h := (c9_revised_record_persistence (fun _ => TransportResult.success "foo")
    (fun s => if s = "foo"
      then some (JsonVal.obj [("revised_pro", JsonVal.str "rev")]) else none)
    "myrec.json" "EQ" "RS" [("revised_pro", JsonVal.str "rev")] rfl).2 rfl
  exact h

/-- Decimal digit list (most significant first) of a natural number, with
explicit fuel to keep the recursion structural; `natDigits` supplies enough
fuel for any input. -/
def natDigitsAux : Nat → Nat → List Char
  | 0, _ => []
  | Nat.succ fuel, n =>
    if n < 10 then [Nat.digitChar n]
    else natDigitsAux fuel (n / 10) ++ [Nat.digitChar (n % 10)]

/-- Decimal digits of a natural number, most significant first. -/
def natDigits (n : Nat) : List Char :=
  natDigitsAux (n + 1) n

/-- Left-pad a digit list with zeros to width `k`. -/
def padZeros (k : Nat) (ds : List Char) : List Char :=
  List.replicate (k - ds.length) '0' ++ ds

/-- `round(q * 10^prec)` (ties away from zero) for a nonnegative rational,
computed with natural-number arithmetic: the numerator of
`(2 * num * 10^prec + den) / (2 * den)` under floor division.  Models the
scaling step of Python fixed-point formatting; Python floats round ties to
even, a difference immaterial to the claims checked here. -/
def roundScaled (prec : Nat) (q : Rat) : Nat :=
  (2 * q.num.toNat * 10 ^ prec + q.den) / (2 * q.den)

/-- The digit string (no sign) of a scaled value `n` representing
`n / 10^prec`, printed with exactly `prec` fractional digits. -/
def fmtFixedNat (prec : Nat) (n : Nat) : List Char :=
  natDigits (n / 10 ^ prec) ++ '.' :: padZeros prec (natDigits (n % 10 ^ prec))

/-- Fixed-point decimal rendering of a rational (`f"\x7bq:.{prec}f\x7d"`):
absolute value rounded at `prec` decimals, with a leading minus sign for
negative inputs. -/
def fmtFixed (prec : Nat) (q : Rat) : String :=
  if q < 0 then ⟨'-' :: fmtFixedNat prec (roundScaled prec (-q))⟩
  else ⟨fmtFixedNat prec (roundScaled prec q)⟩

/-- Value denoted by a digit list, reading left to right. -/
def parseNatChars (ds : List Char) : Nat :=
  ds.foldl (fun a c => 10 * a + (c.toNat - 48)) 0

/-- Rational denoted by a rendered magnitude `"<int>.<frac>"` with 4
fractional digits: the round-trip reader for 4-decimal fixed-point output. -/
def parseFixed4 (s : String) : Rat :=
  (parseNatChars (s.data.takeWhile (fun c => c != '.')) : Rat) +
    (parseNatChars ((s.data.dropWhile (fun c => c != '.')).drop 1) : Rat) / 10000

theorem digitChar_isDigit {m : Nat} (h : m < 10) : (Nat.digitChar m).isDigit = true := by
  interval_cases m <;> decide

theorem digitChar_toNat {m : Nat} (h : m < 10) : (Nat.digitChar m).toNat = 48 + m := by
  interval_cases m <;> decide

theorem natDigitsAux_mem_isDigit :
    ∀ (fuel n : Nat), n < fuel → ∀ c ∈ natDigitsAux fuel n, c.isDigit = true := by
  intro fuel
  induction fuel with
  | zero => intro n h; omega
  | succ fuel ih =>
    intro n _ c hc
    simp only [natDigitsAux] at hc
    by_cases h10 : n < 10
    · simp [h10] at hc
      rw [hc]
      exact digitChar_isDigit h10
    · simp only [h10, if_false, List.mem_append, List.mem_singleton] at hc
      rcases hc with hc | hc
      · exact ih (n / 10) (by omega) c hc
      · rw [hc]
        exact digitChar_isDigit (Nat.mod_lt _ (by omega))

theorem parse_natDigitsAux :
    ∀ (fuel n : Nat), n < fuel → parseNatChars (natDigitsAux fuel n) = n := by
  intro fuel
  induction fuel with
  | zero => intro n h; omega
  | succ fuel ih =>
    intro n hn
    simp only [natDigitsAux]
    by_cases h10 : n < 10
    · simp only [h10, if_true]
      simp [parseNatChars, digitChar_toNat h10]
    · simp only [h10, if_false]
      have hdiv : n / 10 < fuel := by
        have h1 : n / 10 < n := Nat.div_lt_self (by omega) (by omega)
        omega
      have hmod : n % 10 < 10 := Nat.mod_lt _ (by omega)
      simp only [parseNatChars, List.foldl_append, List.foldl_cons, List.foldl_nil]
      have := ih (n / 10) hdiv
      simp only [parseNatChars] at this
      rw [this, digitChar_toNat hmod]
      omega

theorem natDigitsAux_length_le :
    ∀ (k fuel n : Nat), n < fuel → n < 10 ^ k → 1 ≤ k →
      (natDigitsAux fuel n).length ≤ k := by
  intro k
  induction k with
  | zero => intro fuel n _ _ h; omega
  | succ k ih =>
    intro fuel n hfuel hlt _
    match fuel with
    | 0 => omega
    | Nat.succ fuel =>
      simp only [natDigitsAux]
      by_cases h10 : n < 10
      · simp [h10]
      · simp only [h10, if_false, List.length_append, List.length_singleton]
        have hk1 : 1 ≤ k := by
          by_contra hk
          have : k = 0 := by omega
          subst this
          simp at hlt
          omega
        have hdivfuel : n / 10 < fuel := by
          have : n / 10 < n := Nat.div_lt_self (by omega) (by omega)
          omega
        have hdivlt : n / 10 < 10 ^ k := by
          rw [Nat.div_lt_iff_lt_mul (by omega : 0 < 10)]
          calc n < 10 ^ (k + 1) := hlt
            _ = 10 ^ k * 10 := by ring
        have := ih fuel (n / 10) hdivfuel hdivlt hk1
        omega

theorem natDigitsAux_ne_nil :
    ∀ (fuel n : Nat), n < fuel → natDigitsAux fuel n ≠ [] := by
  intro fuel n hn
  match fuel with
  | 0 => omega
  | Nat.succ fuel =>
    simp only [natDigitsAux]
    by_cases h10 : n < 10 <;> simp [h10]

/-- One row of the steel-industry table as filtered by the summary functions:
the calendar date of the timestamp (abstracted to a day index), the six
numeric columns used by the summaries, and the load classification.  Numeric
values are exact rationals standing for the CSV floats. -/
structure SensorRecord where
  date : Nat
  usage_kWh : Rat
  lagging_reactive : Rat
  leading_reactive : Rat
  co2 : Rat
  lagging_pf : Rat
  leading_pf : Rat
  load_type : String

/-- The `numeric_columns` list of `summarize_day`/`summarize_period`
(`scripts/generate_daily_summaries.py` lines 21-28 and 59-66): column label
and accessor, in source order. -/
def numeric_columns : List (String × (SensorRecord → Rat)) :=
  [("Usage_kWh", SensorRecord.usage_kWh),
   ("Lagging_Current_Reactive.Power_kVarh", SensorRecord.lagging_reactive),
   ("Leading_Current_Reactive_Power_kVarh", SensorRecord.leading_reactive),
   ("CO2(tCO2)", SensorRecord.co2),
   ("Lagging_Current_Power_Factor", SensorRecord.lagging_pf),
   ("Leading_Current_Power_Factor", SensorRecord.leading_pf)]

/-- pandas `Series.mean()` over the column values. -/
def seriesMean (l : List Rat) : Rat :=
  l.sum / (l.length : Rat)

/-- pandas `Series.max()` over a nonempty column (0 as an unused default). -/
def listMax : List Rat → Rat
  | [] => 0
  | x :: xs => xs.foldl max x

/-- pandas `Series.min()` over a nonempty column (0 as an unused default). -/
def listMin : List Rat → Rat
  | [] => 0
  | x :: xs => xs.foldl min x

/-- The per-column summary line
`f"- \x7bcol\x7d: Avg = \x7bmean:.2f\x7d, Max = \x7bmax:.2f\x7d, Min = \x7bmin:.2f\x7d\n"`. -/
def colLine (df : List SensorRecord) (col : String × (SensorRecord → Rat)) : String :=
  "- " ++ col.1 ++ ": Avg = " ++ fmtFixed 2 (seriesMean (df.map col.2)) ++
    ", Max = " ++ fmtFixed 2 (listMax (df.map col.2)) ++
    ", Min = " ++ fmtFixed 2 (listMin (df.map col.2)) ++ "\n"

/-- Distinct values in first-occurrence order. -/
def dedupFirst (ts : List String) : List String :=
  ts.foldl (fun acc t => if acc.contains t then acc else acc ++ [t]) []

/-- Stable insertion into a count-descending list. -/
def insertCountDesc (x : String × Nat) : List (String × Nat) → List (String × Nat)
  | [] => [x]
  | y :: ys => if y.2 < x.2 then x :: y :: ys else y :: insertCountDesc x ys

/-- pandas `value_counts()`: distinct load types with their multiplicities,
sorted by count descending (stable). -/
def loadTypeEntries (ts : List String) : List (String × Nat) :=
  ((dedupFirst ts).map (fun t => (t, ts.count t))).foldr insertCountDesc []

/-- The numeric-column loop of the summaries: append one `colLine` per column
to the accumulated summary string. -/
def statLinesFold (df : List SensorRecord) (acc : String) : String :=
  numeric_columns.foldl (fun a col => a ++ colLine df col) acc

/-- The load-type distribution loop: append
`f"- \x7bload_type\x7d: \x7bpercentage:.2f\x7d%\n"` per observed type, the
percentage being `value_counts(normalize=True) * 100`. -/
def loadTypeLinesFold (df : List SensorRecord) (acc : String) : String :=
  (loadTypeEntries (df.map SensorRecord.load_type)).foldl
    (fun a p =>
      a ++ ("- " ++ p.1 ++ ": " ++ fmtFixed 2 (100 * (p.2 : Rat) / (df.length : Rat)) ++ "%\n"))
    acc

/-- `summarize_day` of `scripts/generate_daily_summaries.py` (lines 14-44):
filter the table to the requested date; if nothing remains return the no-data
sentinel, otherwise build the header plus per-column statistics plus load-type
distribution. -/
def summarize_day (df : List SensorRecord) (date : Nat) : String :=
  let day_df := df.filter (fun r => r.date == date)
  if day_df.isEmpty then
    "No data found for " ++ toString date ++ "."
  else
    loadTypeLinesFold day_df
      (statLinesFold day_df ("Summary for " ++ toString date ++ ":\n")
        ++ "\nLoad Type Distribution:\n")

/-- `summarize_period` of `scripts/generate_daily_summaries.py` (lines
54-77): the inclusive date-range variant of `summarize_day` (the `label`
parameter is unused, as in the source). -/
def summarize_period (df : List SensorRecord) (start_date end_date : Nat)
    (_label : String := "period") : String :=
  let period_df := df.filter (fun r => decide (start_date ≤ r.date) && decide (r.date ≤ end_date))
  if period_df.isEmpty then
    "No data found for the period from " ++ toString start_date ++ " to " ++
      toString end_date ++ "."
  else
    loadTypeLinesFold period_df
      (statLinesFold period_df
          ("Summary from " ++ toString start_date ++ " to " ++ toString end_date ++ ":\n")
        ++ "\nLoad Type Distribution:\n")

/-- `s` begins with the character `c`. -/
def startsWithChar (s : String) (c : Char) : Prop :=
  ∃ cs, s.data = c :: cs

theorem startsWithChar_append {s : String} (t : String) {c : Char}
    (h : startsWithChar s c) : startsWithChar (s ++ t) c := by
  obtain ⟨cs, hcs⟩ := h
  exact ⟨cs ++ t.data, by rw [String.data_append, hcs]; rfl⟩

theorem ne_of_startsWithChar {s t : String} (a b : Char)
    (hs : startsWithChar s a) (ht : startsWithChar t b) (hab : a ≠ b) : s ≠ t := by
  intro h
  subst h
  obtain ⟨cs, hcs⟩ := hs
  obtain ⟨ds, hds⟩ := ht
  rw [hcs] at hds
  exact hab (List.head_eq_of_cons_eq hds)

theorem foldl_append_factor {α : Type} (g : α → String) :
    ∀ (l : List α) (acc : String),
      ∃ t, l.foldl (fun a x => a ++ g x) acc = acc ++ t := by
  intro l
  induction l with
  | nil =>
    intro acc
    exact ⟨"", by simp⟩
  | cons x xs ih =>
    intro acc
    obtain ⟨t, ht⟩ := ih (acc ++ g x)
    exact ⟨g x ++ t, by simp only [List.foldl_cons, ht, String.append_assoc]⟩

/-- The non-sentinel branch of either summary function begins with the letter
S of its "Summary ..." header. -/
theorem summary_body_startsWith (df : List SensorRecord) (header mid : String)
    (hh : startsWithChar header 'S') :
    startsWithChar (loadTypeLinesFold df (statLinesFold df header ++ mid)) 'S' := by
  obtain ⟨t1, ht1⟩ := foldl_append_factor (colLine df) numeric_columns header
  obtain ⟨t2, ht2⟩ := foldl_append_factor
    (fun p : String × Nat =>
      "- " ++ p.1 ++ ": " ++ fmtFixed 2 (100 * (p.2 : Rat) / (df.length : Rat)) ++ "%\n")
    (loadTypeEntries (df.map SensorRecord.load_type)) (statLinesFold df header ++ mid)
  rw [loadTypeLinesFold, ht2, statLinesFold, ht1]
  exact startsWithChar_append _ (startsWithChar_append _ (startsWithChar_append _ hh))

theorem summarize_day_of_empty (df : List SensorRecord) (date : Nat)
    (h : df.filter (fun r => r.date == date) = []) :
    summarize_day df date = "No data found for " ++ toString date ++ "." := by
  simp [summarize_day, h]

theorem summarize_day_of_nonempty (df : List SensorRecord) (date : Nat)
    (h : df.filter (fun r => r.date == date) ≠ []) :
    summarize_day df date ≠ "No data found for " ++ toString date ++ "." := by
  have hne : (df.filter (fun r => r.date == date)).isEmpty = false := by
    cases hf : df.filter (fun r => r.date == date) with
    | nil => exact absurd hf h
    | cons r rs => rfl
  rw [summarize_day]
  simp only [hne, Bool.false_eq_true, if_false]
  refine ne_of_startsWithChar 'S' 'N' ?_ ?_ (by decide)
  · exact summary_body_startsWith _ _ _
      (startsWithChar_append _ (startsWithChar_append _ ⟨"ummary for ".data, rfl⟩))
  · exact startsWithChar_append _ (startsWithChar_append _ ⟨"o data found for ".data, rfl⟩)

theorem summarize_period_of_empty (df : List SensorRecord) (d1 d2 : Nat)
    (h : df.filter (fun r => decide (d1 ≤ r.date) && decide (r.date ≤ d2)) = []) :
    summarize_period df d1 d2 =
      "No data found for the period from " ++ toString d1 ++ " to " ++ toString d2 ++ "." := by
  simp [summarize_period, h]

theorem summarize_period_of_nonempty (df : List SensorRecord) (d1 d2 : Nat)
    (h : df.filter (fun r => decide (d1 ≤ r.date) && decide (r.date ≤ d2)) ≠ []) :
    summarize_period df d1 d2 ≠
      "No data found for the period from " ++ toString d1 ++ " to " ++ toString d2 ++ "." := by
  have hne : (df.filter (fun r => decide (d1 ≤ r.date) && decide (r.date ≤ d2))).isEmpty
      = false := by
    cases hf : df.filter (fun r => decide (d1 ≤ r.date) && decide (r.date ≤ d2)) with
    | nil => exact absurd hf h
    | cons r rs => rfl
  rw [summarize_period]
  simp only [hne, Bool.false_eq_true, if_false]
  refine ne_of_startsWithChar 'S' 'N' ?_ ?_ (by decide)
  · exact summary_body_startsWith _ _ _
      (startsWithChar_append _ (startsWithChar_append _ (startsWithChar_append _
        (startsWithChar_append _ ⟨"ummary from ".data, rfl⟩))))
  · exact startsWithChar_append _ (startsWithChar_append _ (startsWithChar_append _
      (startsWithChar_append _ ⟨"o data found for the period from ".data, rfl⟩)))

/-- C6 counterexample: a window holding exactly one record (fewer than 2) on
which `summarize_day` does not return the no-data sentinel — it produces a
full statistics summary, so the "fewer than 2 records" sentinel boundary
claimed by the spec does not hold for the code, whose check is emptiness. -/
theorem c6_counterexample :
    (([⟨5, 10, 1, 2, 3, 4, 6, "Light_Load"⟩] : List SensorRecord).filter
        (fun r => r.date == 5)).length = 1
    ∧ summarize_day [⟨5, 10, 1, 2, 3, 4, 6, "Light_Load"⟩] 5
        ≠ "No data found for " ++ toString 5 ++ "." := by
  constructor
  · rfl
  · refine summarize_day_of_nonempty _ _ ?_
    have hfil : (([⟨5, 10, 1, 2, 3, 4, 6, "Light_Load"⟩] : List SensorRecord).filter
        (fun r => r.date == 5)) = [⟨5, 10, 1, 2, 3, 4, 6, "Light_Load"⟩] := rfl
    rw [hfil]
    exact List.cons_ne_nil _ _

/-- C6 (amended): the summary functions return their fixed no-data sentinel
exactly when the filtered window is empty (zero records, not "fewer than 2");
any nonempty window — including a single-record one — produces a statistics
summary instead, and no fitting of any kind is involved. -/
theorem c6_sentinel_iff_empty_window (df : List SensorRecord) (date d1 d2 : Nat) :
    (summarize_day df date = "No data found for " ++ toString date ++ "."
      ↔ df.filter (fun r => r.date == date) = [])
    ∧ (summarize_period df d1 d2 =
        "No data found for the period from " ++ toString d1 ++ " to " ++ toString d2 ++ "."
      ↔ df.filter (fun r => decide (d1 ≤ r.date) && decide (r.date ≤ d2)) = []) := by
  constructor
  · constructor
    · intro h
      by_contra hne
      exact summarize_day_of_nonempty df date hne h
    · exact summarize_day_of_empty df date
  · constructor
    · intro h
      by_contra hne
      exact summarize_period_of_nonempty df d1 d2 hne h
    · exact summarize_period_of_empty df d1 d2

theorem string_foldl_append (l : List String) :
    ∀ acc : String,
      List.foldl (fun r s => r ++ s) acc l = acc ++ List.foldl (fun r s => r ++ s) "" l := by
  induction l with
  | nil => intro acc; simp
  | cons x xs ih =>
    intro acc
    simp only [List.foldl_cons]
    rw [ih (acc ++ x), ih ("" ++ x)]
    simp [String.append_assoc]

theorem string_join_cons (a : String) (l : List String) :
    String.join (a :: l) = a ++ String.join l := by
  simp only [String.join, List.foldl_cons]
  rw [string_foldl_append l ("" ++ a)]
  simp

theorem string_join_append (l1 l2 : List String) :
    String.join (l1 ++ l2) = String.join l1 ++ String.join l2 := by
  simp only [String.join, List.foldl_append]
  rw [string_foldl_append l2 (List.foldl (fun r s => r ++ s) "" l1)]

/-- Modelled from the spec: the regression-equation renderer of the
RegressionSummarizer (spec §3 EquationString, §4.1) is not present under
`src/` — only the plain daily-summary generator and callers consuming its
`summary_equation` output are — so its coefficient magnitude rendering is
modelled from the spec sentence "coefficients and intercept rendered to 4
decimal places; sign of each coefficient rendered as explicit `+`/`-` prefix
with absolute value printed": the absolute value rounded at 4 decimals,
printed with exactly 4 fractional digits and no sign. -/
def coefMagnitude (c : Rat) : String :=
  ⟨fmtFixedNat 4 (roundScaled 4 |c|)⟩

/-- Modelled from the spec: one coefficient term
`" +|- <|coef|, 4 decimals> * <feature_name>"` of the EquationString grammar. -/
def coefTerm (name : String) (c : Rat) : String :=
  (if c < 0 then " - " else " + ") ++ coefMagnitude c ++ " * " ++ name

/-- Modelled from the spec: the intercept rendering
`"<intercept, 4 decimals>"` opening the EquationString. -/
def interceptString (b : Rat) : String :=
  (if b < 0 then "-" else "") ++ coefMagnitude b

/-- Modelled from the spec: the EquationString serialization
`"<target> = <intercept>[ +|- <|coef|> * <feature>]*"` of a fitted model
(intercept plus named coefficients in feature order). -/
def renderEquation (target : String) (intercept : Rat)
    (coefs : List (String × Rat)) : String :=
  target ++ " = " ++ interceptString intercept ++
    String.join (coefs.map (fun p => coefTerm p.1 p.2))

/-- Number of characters after the last `'.'` of a rendered magnitude. -/
def fracLen (s : String) : Nat :=
  ((s.data.reverse).takeWhile (fun c => c != '.')).length

theorem isDigit_ne_dot {c : Char} (h : c.isDigit = true) : (c != '.') = true := by
  rcases eq_or_ne c '.' with rfl | hne
  · exact absurd h (by decide)
  · simp [hne]

theorem padZeros_digits (prec m : Nat) :
    ∀ c ∈ padZeros prec (natDigits m), c.isDigit = true := by
  intro c hc
  simp only [padZeros, List.mem_append, List.mem_replicate] at hc
  rcases hc with ⟨_, rfl⟩ | hc
  · decide
  · exact natDigitsAux_mem_isDigit (m + 1) m (Nat.lt_succ_self m) c hc

theorem padZeros_length {prec : Nat} {ds : List Char} (h : ds.length ≤ prec) :
    (padZeros prec ds).length = prec := by
  simp only [padZeros, List.length_append, List.length_replicate]
  omega

theorem takeWhile_stops_at_dot (A B : List Char) (h : ∀ c ∈ A, (c != '.') = true) :
    (A ++ '.' :: B).takeWhile (fun c => c != '.') = A := by
  induction A with
  | nil => simp
  | cons a A ih =>
    have ha : (a != '.') = true := h a (List.mem_cons_self a A)
    simp only [List.cons_append, List.takeWhile_cons, ha, if_true]
    rw [ih (fun c hc => h c (List.mem_cons_of_mem a hc))]

theorem dropWhile_stops_at_dot (A B : List Char) (h : ∀ c ∈ A, (c != '.') = true) :
    (A ++ '.' :: B).dropWhile (fun c => c != '.') = '.' :: B := by
  induction A with
  | nil => simp
  | cons a A ih =>
    have ha : (a != '.') = true := h a (List.mem_cons_self a A)
    simp only [List.cons_append, List.dropWhile_cons, ha, if_true]
    exact ih (fun c hc => h c (List.mem_cons_of_mem a hc))

theorem parseNatChars_replicate_zero (k : Nat) (ds : List Char) :
    parseNatChars (List.replicate k '0' ++ ds) = parseNatChars ds := by
  simp only [parseNatChars, List.foldl_append]
  have hz : List.foldl (fun a c => 10 * a + (c.toNat - 48)) 0 (List.replicate k '0') = 0 := by
    induction k with
    | zero => rfl
    | succ k ih => simpa [List.replicate_succ] using ih
  rw [hz]

theorem natDigits_no_dot (m : Nat) : ∀ c ∈ natDigits m, (c != '.') = true :=
  fun c hc => isDigit_ne_dot (natDigitsAux_mem_isDigit (m + 1) m (Nat.lt_succ_self m) c hc)

theorem parseFixed4_fmtFixedNat (n : Nat) :
    parseFixed4 ⟨fmtFixedNat 4 n⟩ = ((n : Nat) : Rat) / 10000 := by
  have hpaddig : ∀ c ∈ padZeros 4 (natDigits (n % 10 ^ 4)), (c != '.') = true :=
    fun c hc => isDigit_ne_dot (padZeros_digits 4 (n % 10 ^ 4) c hc)
  have htake := takeWhile_stops_at_dot (natDigits (n / 10 ^ 4))
    (padZeros 4 (natDigits (n % 10 ^ 4))) (natDigits_no_dot (n / 10 ^ 4))
  have hdrop := dropWhile_stops_at_dot (natDigits (n / 10 ^ 4))
    (padZeros 4 (natDigits (n % 10 ^ 4))) (natDigits_no_dot (n / 10 ^ 4))
  simp only [parseFixed4, fmtFixedNat, htake, hdrop, List.drop_succ_cons, List.drop_zero]
  rw [show padZeros 4 (natDigits (n % 10 ^ 4))
      = List.replicate (4 - (natDigits (n % 10 ^ 4)).length) '0' ++ natDigits (n % 10 ^ 4)
    from rfl]
  rw [parseNatChars_replicate_zero]
  rw [show parseNatChars (natDigits (n / 10 ^ 4)) = n / 10 ^ 4 from
    parse_natDigitsAux _ _ (Nat.lt_succ_self _)]
  rw [show parseNatChars (natDigits (n % 10 ^ 4)) = n % 10 ^ 4 from
    parse_natDigitsAux _ _ (Nat.lt_succ_self _)]
  have hnm : 10 ^ 4 * (n / 10 ^ 4) + n % 10 ^ 4 = n := Nat.div_add_mod n (10 ^ 4)
  have h4 : (10 : Nat) ^ 4 = 10000 := by norm_num
  rw [h4] at hnm
  field_simp
  push_cast
  have hnmQ : (10000 : Rat) * ((n / 10000 : Nat) : Rat) + ((n % 10000 : Nat) : Rat)
      = (n : Rat) := by exact_mod_cast hnm
  linarith

theorem roundScaled4_close (q : Rat) (hq : 0 ≤ q) :
    |((roundScaled 4 q : Nat) : Rat) / 10000 - q| ≤ 1 / 20000 := by
  have hdenpos : 0 < q.den := q.den_pos
  have hden0 : ((q.den : Nat) : Rat) ≠ 0 := Nat.cast_ne_zero.mpr (by omega)
  have hnum : (0 : Int) ≤ q.num := Rat.num_nonneg.mpr hq
  have h2 : ((q.num : Int) : Rat) = q * (q.den : Rat) :=
    (div_eq_iff hden0).mp (Rat.num_div_den q)
  have hdm : 2 * q.den * ((2 * q.num.toNat * 10 ^ 4 + q.den) / (2 * q.den))
      + (2 * q.num.toNat * 10 ^ 4 + q.den) % (2 * q.den)
      = 2 * q.num.toNat * 10 ^ 4 + q.den := Nat.div_add_mod _ _
  have hmlt : (2 * q.num.toNat * 10 ^ 4 + q.den) % (2 * q.den) < 2 * q.den :=
    Nat.mod_lt _ (by omega)
  set r : Nat := (2 * q.num.toNat * 10 ^ 4 + q.den) / (2 * q.den) with hrdef
  set m : Nat := (2 * q.num.toNat * 10 ^ 4 + q.den) % (2 * q.den) with hmdef
  have hroundr : roundScaled 4 q = r := rfl
  have keyQ : 2 * (q.den : Rat) * (r : Rat) + (m : Rat)
      = 20000 * (q * q.den) + q.den := by
    have hc : ((2 * q.den * r + m : Nat) : Rat)
        = ((2 * q.num.toNat * 10 ^ 4 + q.den : Nat) : Rat) := by exact_mod_cast hdm
    push_cast at hc
    have h1 : ((q.num.toNat : Nat) : Rat) = ((q.num : Int) : Rat) := by
      exact_mod_cast Int.toNat_of_nonneg hnum
    rw [h1, h2] at hc
    linarith
  have hmQ : (m : Rat) < 2 * q.den := by exact_mod_cast hmlt
  have hm0 : (0 : Rat) ≤ m := by positivity
  have hDQ : (0 : Rat) < q.den := by exact_mod_cast hdenpos
  rw [hroundr, abs_le]
  constructor
  · have h4 : (0 : Rat) ≤ 2 * q.den - m := by linarith
    have hfact : (r : Rat) / 10000 - q + 1 / 20000 = (2 * q.den - m) / (20000 * q.den) := by
      field_simp
      ring_nf
      ring_nf at keyQ
      linarith
    have := div_nonneg h4 (by positivity : (0 : Rat) ≤ 20000 * q.den)
    linarith [hfact ▸ this]
  · have hfact : 1 / 20000 - ((r : Rat) / 10000 - q) = (m : Rat) / (20000 * q.den) := by
      field_simp
      ring_nf
      ring_nf at keyQ
      linarith
    have := div_nonneg hm0 (by positivity : (0 : Rat) ≤ 20000 * q.den)
    linarith [hfact ▸ this]

theorem fmtFixedNat_chars (n : Nat) :
    ∀ ch ∈ fmtFixedNat 4 n, ch.isDigit = true ∨ ch = '.' := by
  intro ch hch
  simp only [fmtFixedNat, List.mem_append, List.mem_cons] at hch
  rcases hch with h | h | h
  · exact Or.inl (natDigitsAux_mem_isDigit _ _ (Nat.lt_succ_self _) ch h)
  · exact Or.inr h
  · exact Or.inl (padZeros_digits 4 _ ch h)

/-- Every character of a rendered magnitude is a digit or the decimal point:
in particular no sign character ever appears in it. -/
theorem coefMagnitude_chars (q : Rat) :
    ((coefMagnitude q).data.all (fun ch => ch.isDigit || ch == '.')) = true := by
  rw [List.all_eq_true]
  intro ch hch
  rcases fmtFixedNat_chars (roundScaled 4 |q|) ch hch with h | h
  · simp [h]
  · simp [h]

/-- A rendered magnitude has exactly 4 characters after its decimal point. -/
theorem fracLen_coefMagnitude (q : Rat) : fracLen (coefMagnitude q) = 4 := by
  have hlen : (natDigits (roundScaled 4 |q| % 10 ^ 4)).length ≤ 4 :=
    natDigitsAux_length_le 4 _ _ (Nat.lt_succ_self _)
      (Nat.mod_lt _ (by norm_num)) (by norm_num)
  have hrev : (fmtFixedNat 4 (roundScaled 4 |q|)).reverse
      = (padZeros 4 (natDigits (roundScaled 4 |q| % 10 ^ 4))).reverse ++
          '.' :: (natDigits (roundScaled 4 |q| / 10 ^ 4)).reverse := by
    simp [fmtFixedNat, List.reverse_append, List.reverse_cons, List.append_assoc]
  have hmem : ∀ ch ∈ (padZeros 4 (natDigits (roundScaled 4 |q| % 10 ^ 4))).reverse,
      (ch != '.') = true :=
    fun ch hc => isDigit_ne_dot (padZeros_digits _ _ ch (List.mem_reverse.mp hc))
  show ((fmtFixedNat 4 (roundScaled 4 |q|)).reverse.takeWhile (fun c => c != '.')).length = 4
  rw [hrev, takeWhile_stops_at_dot _ _ hmem, List.length_reverse, padZeros_length hlen]

/-- The explicit sign together with the printed magnitude recovers the
original signed coefficient to 4-decimal precision. -/
theorem coefMagnitude_recovers (c : Rat) :
    |(if c < 0 then -parseFixed4 (coefMagnitude c) else parseFixed4 (coefMagnitude c)) - c|
      ≤ 1 / 20000 := by
  have hp : parseFixed4 (coefMagnitude c)
      = ((roundScaled 4 |c| : Nat) : Rat) / 10000 := parseFixed4_fmtFixedNat _
  have hclose := roundScaled4_close |c| (abs_nonneg c)
  by_cases hc : c < 0
  · rw [if_pos hc, hp]
    have h1 : -(((roundScaled 4 |c| : Nat) : Rat) / 10000) - c
        = -((((roundScaled 4 |c| : Nat) : Rat) / 10000) - |c|) := by
      rw [abs_of_neg hc]; ring
    rw [h1, abs_neg]
    exact hclose
  · rw [if_neg hc, hp]
    rw [show (((roundScaled 4 |c| : Nat) : Rat) / 10000) - c
        = (((roundScaled 4 |c| : Nat) : Rat) / 10000) - |c| by
      rw [abs_of_nonneg (not_lt.mp hc)]]
    exact hclose

theorem coefTerm_in_render (target name : String) (b c : Rat)
    (pre post : List (String × Rat)) :
    (coefTerm name c).data <:+: (renderEquation target b (pre ++ (name, c) :: post)).data := by
  have hsplit : renderEquation target b (pre ++ (name, c) :: post)
      = (target ++ " = " ++ interceptString b ++
          String.join (pre.map (fun p => coefTerm p.1 p.2)))
        ++ coefTerm name c
        ++ String.join (post.map (fun p => coefTerm p.1 p.2)) := by
    rw [renderEquation, List.map_append, string_join_append, List.map_cons, string_join_cons]
    simp [String.append_assoc]
  rw [hsplit]
  exact data_chunk _ _ _

/-- C7 (spec-modelled renderer): in every rendered equation, each coefficient
appears as an explicit ` + `/` - ` sign followed by a signless magnitude made
of digits and one decimal point with exactly 4 fractional digits, and the
intercept likewise carries exactly 4 decimals; reading the printed magnitude
back and applying the rendered sign recovers each original signed value to
within half of the final decimal place (1/20000). -/
theorem c7_equation_rendering (target name : String) (b c : Rat)
    (pre post : List (String × Rat)) :
    ((coefTerm name c).data <:+: (renderEquation target b (pre ++ (name, c) :: post)).data)
    ∧ coefTerm name c
        = (if c < 0 then " - " else " + ") ++ coefMagnitude c ++ " * " ++ name
    ∧ ((coefMagnitude c).data.all (fun ch => ch.isDigit || ch == '.')) = true
    ∧ fracLen (coefMagnitude c) = 4
    ∧ |(if c < 0 then -parseFixed4 (coefMagnitude c) else parseFixed4 (coefMagnitude c)) - c|
        ≤ 1 / 20000
    ∧ interceptString b = (if b < 0 then "-" else "") ++ coefMagnitude b
    ∧ ((coefMagnitude b).data.all (fun ch => ch.isDigit || ch == '.')) = true
    ∧ fracLen (coefMagnitude b) = 4
    ∧ |(if b < 0 then -parseFixed4 (coefMagnitude b) else parseFixed4 (coefMagnitude b)) - b|
        ≤ 1 / 20000 :=
  ⟨coefTerm_in_render target name b c pre post, rfl, coefMagnitude_chars c,
   fracLen_coefMagnitude c, coefMagnitude_recovers c, rfl, coefMagnitude_chars b,
   fracLen_coefMagnitude b, coefMagnitude_recovers b⟩
